import Mathlib

/-!
Shallow embedding of the Windmill_Flows transaction-parsing scripts
(`Parse transaction details from email bodies.py` and
`Categorize transactions by merchant keywords.py`).

Strings are modelled as `List Char`; Python floats are modelled as exact
rationals (`ℚ`), which is faithful at the granularity of every value the
claims compare.  Each Python regex substitution / search is embedded as an
explicit scanner that follows the `re` module's leftmost, non-overlapping,
greedy/lazy backtracking semantics for the concrete pattern involved.
-/

namespace Windmill

/-- Shorthand: the character list of a string literal. -/
def str (s : String) : List Char := s.data

/-- The whitespace set recognised by Python's regex `\s` (str patterns),
`str.isspace` and `str.strip` (these three coincide exactly on every
codepoint): the space, the ASCII controls `\t` through `\r` and `\x1c`
through `\x1f`, and the Unicode whitespace `\x85`, `\xa0` (NBSP),
`\u1680`, `\u2000` through `\u200a`, `\u2028`, `\u2029`, `\u202f`,
`\u205f` and `\u3000`. -/
def isWS (c : Char) : Bool :=
  let n := c.toNat
  n = 32 || (9 ≤ n && n ≤ 13) || (28 ≤ n && n ≤ 31) ||
  n = 0x85 || n = 0xa0 || n = 0x1680 ||
  (0x2000 ≤ n && n ≤ 0x200a) || n = 0x2028 || n = 0x2029 ||
  n = 0x202f || n = 0x205f || n = 0x3000

/-- Python `str.lower` restricted to the alphabets that occur in this
repository's patterns and data (ASCII plus the Spanish accented letters). -/
def lowerChar (c : Char) : Char :=
  if 'A' ≤ c ∧ c ≤ 'Z' then Char.ofNat (c.toNat + 32)
  else if c = 'Á' then 'á' else if c = 'É' then 'é' else if c = 'Í' then 'í'
  else if c = 'Ó' then 'ó' else if c = 'Ú' then 'ú' else if c = 'Ñ' then 'ñ'
  else if c = 'Ü' then 'ü' else c

def lowerStr (s : List Char) : List Char := s.map lowerChar

def isDigit (c : Char) : Bool := '0' ≤ c && c ≤ '9'

/-- Does `p` occur at the very start of `s`? (case-sensitive). -/
def beginsWith : List Char → List Char → Bool
  | [], _ => true
  | _ :: _, [] => false
  | p :: ps, c :: cs => p = c && beginsWith ps cs

/-- Python's `pat in s` substring test. -/
def containsSub (pat : List Char) (s : List Char) : Bool :=
  match s with
  | [] => beginsWith pat []
  | _ :: rest => beginsWith pat s || containsSub pat rest

/-- Leftmost-position search driver: `re.search`, applying the
position-matcher `f` at every suffix from the left. -/
def scanFirst (f : List Char → Option α) : List Char → Option α
  | [] => none
  | c :: rest =>
    match f (c :: rest) with
    | some a => some a
    | none => scanFirst f rest

/-- Fuelled worker for `scanSub`; the fuel is an upper bound on the number of
remaining characters, so the wrapper below always supplies enough. -/
def scanSubF (t : List Char → Option (List Char × Nat)) :
    Nat → List Char → List Char
  | 0, s => s
  | _ + 1, [] => []
  | fuel + 1, c :: rest =>
    match t (c :: rest) with
    | some (rep, k) => rep ++ scanSubF t fuel (rest.drop k)
    | none => c :: scanSubF t fuel rest

/-- Driver for `re.sub`: `t` attempts a match at the current position and on
success returns the replacement text together with `k` where `k + 1` is the
number of characters consumed; matches are non-overlapping and scanning
resumes after the consumed region, exactly as in Python. -/
def scanSub (t : List Char → Option (List Char × Nat)) (s : List Char) :
    List Char :=
  scanSubF t s.length s

/-- Python `str.replace pat rep` (leftmost, non-overlapping), for a
non-empty pattern. -/
def replaceAll (pat rep : List Char) (s : List Char) : List Char :=
  scanSub
    (fun u => if pat ≠ [] ∧ beginsWith pat u then some (rep, pat.length - 1)
              else none) s

/-! ### clean_html -/

/-- Case-insensitive prefix test against an already-lowercase pattern. -/
def beginsWithCI (pat : List Char) (s : List Char) : Bool :=
  beginsWith pat (lowerStr (s.take pat.length))

/-- Position matcher for `<style[^>]*>.*?</style>` (DOTALL, IGNORECASE):
consume up to the first `>`, then lazily up to the first `</style>`. -/
def tryStyle (s : List Char) : Option (List Char × Nat) :=
  match s with
  | c :: rest =>
    if c = '<' ∧ beginsWithCI (str "style") rest then
      let afterKw := rest.drop 5
      let inner := afterKw.takeWhile (· ≠ '>')
      let afterGt := afterKw.drop (inner.length + 1)
      if inner.length < afterKw.length then
        match closeStyle afterGt 0 with
        | some n => some ([], 6 + inner.length + 1 + n - 1)
        | none => none
      else none
    else none
  | [] => none
where
  /-- Length through the first case-insensitive `</style>`. -/
  closeStyle : List Char → Nat → Option Nat
    | [], _ => none
    | c :: rest, acc =>
      if c = '<' ∧ beginsWithCI (str "/style>") rest then some (acc + 8)
      else closeStyle rest (acc + 1)

/-- Position matcher for `<script[^>]*>.*?</script>` (DOTALL, IGNORECASE). -/
def tryScriptT (s : List Char) : Option (List Char × Nat) :=
  match s with
  | c :: rest =>
    if c = '<' ∧ beginsWithCI (str "script") rest then
      let afterKw := rest.drop 6
      let inner := afterKw.takeWhile (· ≠ '>')
      let afterGt := afterKw.drop (inner.length + 1)
      if inner.length < afterKw.length then
        match closeScript afterGt 0 with
        | some n => some ([], 7 + inner.length + 1 + n - 1)
        | none => none
      else none
    else none
  | [] => none
where
  closeScript : List Char → Nat → Option Nat
    | [], _ => none
    | c :: rest, acc =>
      if c = '<' ∧ beginsWithCI (str "/script>") rest then some (acc + 9)
      else closeScript rest (acc + 1)

/-- Position matcher for `<br\s*/?\s*>` (IGNORECASE), replaced by `\n`. -/
def tryBr (s : List Char) : Option (List Char × Nat) :=
  match s with
  | c :: rest =>
    if c = '<' ∧ beginsWithCI (str "br") rest then
      let t1 := rest.drop 2
      let ws1 := t1.takeWhile isWS
      let t2 := t1.drop ws1.length
      let (slash, t3) :=
        match t2 with
        | '/' :: u => (1, u)
        | _ => (0, t2)
      let ws2 := t3.takeWhile isWS
      let t4 := t3.drop ws2.length
      match t4 with
      | '>' :: _ => some ([ '\n' ], 2 + ws1.length + slash + ws2.length + 1)
      | _ => none
    else none
  | [] => none

/-- Position matcher for `</(p|div|tr|li|h[1-6])>` (IGNORECASE), → `\n`. -/
def tryBlockClose (s : List Char) : Option (List Char × Nat) :=
  match s with
  | c :: rest =>
    if c = '<' then
      match rest with
      | '/' :: rest2 =>
        (match tagLen rest2 with
         | some n => some ([ '\n' ], 2 + n - 1)
         | none => none)
      | _ => none
    else none
  | [] => none
where
  tagLen (rest2 : List Char) : Option Nat :=
    if beginsWithCI (str "p>") rest2 then some 2
    else if beginsWithCI (str "div>") rest2 then some 4
    else if beginsWithCI (str "tr>") rest2 then some 3
    else if beginsWithCI (str "li>") rest2 then some 3
    else
      match rest2 with
      | h :: d :: '>' :: _ =>
        if (lowerChar h = 'h') ∧ ('1' ≤ d ∧ d ≤ '6') then some 3 else none
      | _ => none

/-- Position matcher for `<td[^>]*>` (IGNORECASE), → `" | "`. -/
def tryTd (s : List Char) : Option (List Char × Nat) :=
  match s with
  | c :: rest =>
    if c = '<' ∧ beginsWithCI (str "td") rest then
      let afterKw := rest.drop 2
      let inner := afterKw.takeWhile (· ≠ '>')
      if inner.length < afterKw.length then
        some (str " | ", 3 + inner.length + 1 - 1)
      else none
    else none
  | [] => none

/-- Position matcher for the generic tag pattern `<[^>]+>`, → `" "`. -/
def tryAnyTag (s : List Char) : Option (List Char × Nat) :=
  match s with
  | c :: rest =>
    if c = '<' then
      let inner := rest.takeWhile (· ≠ '>')
      if inner.length ≥ 1 ∧ inner.length < rest.length then
        some (str " ", 1 + inner.length + 1 - 1)
      else none
    else none
  | [] => none

/-- The seven HTML-entity replacements, applied in the source's order
(`&nbsp;` first, `&apos;` last, so the outermost call is the last one). -/
def decodeEntities (s : List Char) : List Char :=
  replaceAll (str "&apos;") [Char.ofNat 39]
    (replaceAll (str "&#39;") [Char.ofNat 39]
      (replaceAll (str "&quot;") (str "\"")
        (replaceAll (str "&gt;") (str ">")
          (replaceAll (str "&lt;") (str "<")
            (replaceAll (str "&amp;") (str "&")
              (replaceAll (str "&nbsp;") (str " ") s))))))

/-- Position matcher for `[ \t]+` → `" "`. -/
def trySpaces (s : List Char) : Option (List Char × Nat) :=
  match s with
  | c :: rest =>
    if c = ' ' ∨ c = '\t' then
      some (str " ", (rest.takeWhile (fun d => d = ' ' || d = '\t')).length)
    else none
  | [] => none

/-- Position matcher for `\n\s*\n` → `\n`: greedy `\s*` backtracks to the
last newline inside the maximal whitespace run that follows. -/
def tryBlankRun (s : List Char) : Option (List Char × Nat) :=
  match s with
  | c :: rest =>
    if c = '\n' then
      match (rest.takeWhile isWS).reverse.findIdx? (· = '\n') with
      | some j => some ([ '\n' ], (rest.takeWhile isWS).length - 1 - j + 1)
      | none => none
    else none
  | [] => none

/-- Python `str.strip()`. -/
def stripWS (s : List Char) : List Char :=
  ((s.dropWhile isWS).reverse.dropWhile isWS).reverse

/-- Embedding of `clean_html` from the parse script: style and script
blocks removed, `<br>` and block-closing tags to newlines, `<td>` to a
column separator, remaining tags stripped, entities decoded, whitespace
collapsed, and the result stripped — in exactly the source's order
(innermost application first). -/
def clean_html (html : List Char) : List Char :=
  if html = [] then []
  else
    stripWS (scanSub tryBlankRun (scanSub trySpaces (decodeEntities
      (scanSub tryAnyTag (scanSub tryTd (scanSub tryBlockClose
        (scanSub tryBr (scanSub tryScriptT (scanSub tryStyle html)))))))))

/-! ### Numeric-literal matchers for the amount patterns -/

/-- Exactly `n` digits: returns them and the rest. -/
def takeNdig : Nat → List Char → Option (List Char × List Char)
  | 0, s => some ([], s)
  | n + 1, c :: rest =>
    if isDigit c then (takeNdig n rest).map (fun p => (c :: p.1, p.2))
    else none
  | _ + 1, [] => none

/-- The tail `(?:[.,]\d{2})` of the BAC numeric literal. -/
def numTail (s : List Char) : Option (List Char × List Char) :=
  match s with
  | c :: s2 =>
    if c = '.' ∨ c = ',' then (takeNdig 2 s2).map (fun p => (c :: p.1, p.2))
    else none
  | [] => none

/-- Greedy `(?:[,.]?\d{3})*(?:[.,]\d{2})` with full backtracking: prefer one
more iteration (and, inside an iteration, a present separator) before
falling back to the two-decimal tail.  The fuel bounds recursion depth. -/
def numLoop : Nat → List Char → Option (List Char × List Char)
  | 0, _ => none
  | fuel + 1, s =>
    let iter (pre : Option (List Char × List Char)) :
        Option (List Char × List Char) :=
      match pre with
      | some (m1, r1) =>
        match numLoop fuel r1 with
        | some (m2, r2) => some (m1 ++ m2, r2)
        | none => none
      | none => none
    let withSep :=
      match s with
      | c :: s2 =>
        if c = ',' ∨ c = '.' then
          (takeNdig 3 s2).map (fun p => (c :: p.1, p.2))
        else none
      | [] => none
    match iter withSep with
    | some res => some res
    | none =>
      match iter (takeNdig 3 s) with
      | some res => some res
      | none => numTail s

/-- The group `[0-9]{1,3}(?:[,.]?\d{3})*(?:[.,]\d{2})` at this position:
greedy `{1,3}` tries three leading digits, then two, then one. -/
def matchNum (s : List Char) : Option (List Char) :=
  tryK 3 <|> tryK 2 <|> tryK 1
where
  tryK (k : Nat) : Option (List Char) :=
    match takeNdig k s with
    | some (ds, r) => (numLoop (r.length + 1) r).map (fun p => ds ++ p.1)
    | none => none

/-- Greedy `(?:,\d{3})*\.\d{2}` (US-style, pattern 6) with backtracking. -/
def numLoopUS : Nat → List Char → Option (List Char × List Char)
  | 0, _ => none
  | fuel + 1, s =>
    let withSep :=
      match s with
      | ',' :: s2 => (takeNdig 3 s2).map (fun p => (',' :: p.1, p.2))
      | _ => none
    let extended :=
      match withSep with
      | some (m1, r1) =>
        match numLoopUS fuel r1 with
        | some (m2, r2) => some (m1 ++ m2, r2)
        | none => none
      | none => none
    match extended with
    | some res => some res
    | none =>
      match s with
      | '.' :: s2 => (takeNdig 2 s2).map (fun p => ('.' :: p.1, p.2))
      | _ => none

/-- The group `[0-9]{1,3}(?:,\d{3})*\.\d{2}` at this position. -/
def matchNumUS (s : List Char) : Option (List Char) :=
  tryK 3 <|> tryK 2 <|> tryK 1
where
  tryK (k : Nat) : Option (List Char) :=
    match takeNdig k s with
    | some (ds, r) => (numLoopUS (r.length + 1) r).map (fun p => ds ++ p.1)
    | none => none

/-- Numeric value of a digit string, most significant first. -/
def digitsVal (ds : List Char) : Nat :=
  ds.foldl (fun acc c => 10 * acc + (c.toNat - 48)) 0

/-- Python `float(s)` on the strings this code can feed it: an optional
single decimal point between digit runs; anything else raised `ValueError`
in the source and is `none` here. -/
def floatOfDigits (s : List Char) : Option ℚ :=
  let intPart := s.takeWhile isDigit
  match s.drop intPart.length with
  | [] => if intPart = [] then none else some (digitsVal intPart : ℚ)
  | '.' :: frac =>
    if (intPart ≠ [] ∨ frac ≠ []) ∧ frac.all isDigit then
      some (mkRat (digitsVal intPart * 10 ^ frac.length + digitsVal frac)
        (10 ^ frac.length))
    else none
  | _ => none

/-- The `amount_str.replace(",", "")` step of both parsers. -/
def removeCommas (s : List Char) : List Char := s.filter (· ≠ ',')

/-- The conversion the BAC parser applies to a matched amount literal:
strip commas, then `float`. -/
def bacLiteralValue (s : List Char) : Option ℚ :=
  floatOfDigits (removeCommas s)

/-! ### BAC Costa Rica amount cascade -/

/-- Pattern 1: `[₡$¢]\s*(NUM)`. -/
def tryAmt1 (s : List Char) : Option (List Char) :=
  match s with
  | c :: s2 =>
    if c = '₡' ∨ c = '$' ∨ c = '¢' then matchNum (s2.dropWhile isWS)
    else none
  | [] => none

/-- Pattern 2: `(?:USD|CRC|US\$)\s*(NUM)`. -/
def tryAmt2 (s : List Char) : Option (List Char) :=
  after (str "USD") <|> after (str "CRC") <|> after (str "US$")
where
  after (kw : List Char) : Option (List Char) :=
    if beginsWith kw s then matchNum ((s.drop kw.length).dropWhile isWS)
    else none

/-- Label patterns 3–5: `[Xx]label[:\s]+[₡$]?\s*(NUM)` with the given
lowercase label tail (e.g. `onto` for `[Mm]onto`). -/
def tryAmtLabel (lo up : Char) (tailKw : List Char) (s : List Char) :
    Option (List Char) :=
  match s with
  | c :: s2 =>
    if (c = lo ∨ c = up) ∧ beginsWith tailKw s2 then
      let t1 := s2.drop tailKw.length
      let sep := t1.takeWhile (fun d => d = ':' || isWS d)
      if sep.length ≥ 1 then
        let t2 := t1.drop sep.length
        let t3 := match t2 with
                  | d :: u => if d = '₡' ∨ d = '$' then u else t2
                  | [] => t2
        matchNum (t3.dropWhile isWS)
      else none
    else none
  | [] => none

/-- Pattern 6: the bare US-style literal `([0-9]{1,3}(?:,\d{3})*\.\d{2})`. -/
def tryAmt6 (s : List Char) : Option (List Char) := matchNumUS s

/-- The ordered amount pattern list of `parse_bac_costa_rica`. -/
def bacAmountPatterns : List (List Char → Option (List Char)) :=
  [tryAmt1, tryAmt2,
   tryAmtLabel 'm' 'M' (str "onto"),
   tryAmtLabel 'c' 'C' (str "antidad"),
   tryAmtLabel 't' 'T' (str "otal"),
   tryAmt6]

/-- The amount cascade: first pattern whose leftmost match parses to a
positive value wins; a parse failure or non-positive value moves on to the
next pattern, exactly as the source's `continue`/`break` loop does. -/
def bacAmountCascade (full : List Char) : Option ℚ :=
  bacAmountPatterns.findSome? fun p =>
    match scanFirst p full with
    | some g =>
      match bacLiteralValue g with
      | some q => if 0 < q then some q else none
      | none => none
    | none => none

/-! ### BAC Costa Rica merchant, date, card and type extraction -/

/-- Lazy group helper for `(G)+?` style groups: returns the shortest
non-empty run of `valid` characters after which `tailOK` holds. -/
def lazyGroup (valid : Char → Bool) (tailOK : List Char → Bool) :
    List Char → Option (List Char)
  | [] => none
  | c :: rest =>
    if valid c then
      if tailOK rest then some [c]
      else (lazyGroup valid tailOK rest).map (c :: ·)
    else none

/-- Does the list start with `\d{2}-\d{2}-\d{4}`? -/
def isDdMmYyyyAt (s : List Char) : Bool :=
  match takeNdig 2 s with
  | some (_, '-' :: r1) =>
    (match takeNdig 2 r1 with
     | some (_, '-' :: r2) => (takeNdig 4 r2).isSome
     | _ => false)
  | _ => false

/-- Tail of the subject merchant pattern: `\s+\d{2}-\d{2}-\d{4}`. -/
def notifTailOK (t : List Char) : Bool :=
  let r := t.dropWhile isWS
  decide (r.length < t.length) && isDdMmYyyyAt r

/-- After the literal `transacci[oó]n`, match `\s+(.+?)` against the tail
pattern, backtracking the greedy `\s+` from its maximal run down to one
character, with the lazy group growing from one character up. -/
def bacMerchAfterKw (s : List Char) : Option (List Char) :=
  tryJ ((s.takeWhile isWS).length)
where
  tryJ : Nat → Option (List Char)
    | 0 => none
    | j + 1 =>
      match lazyGroup (· ≠ '\n') notifTailOK (s.drop (j + 1)) with
      | some g => some g
      | none => tryJ j

/-- Consume `\s+` followed by the exact keyword, or fail. -/
def wsThen (kw : List Char) (s : List Char) : Option (List Char) :=
  let r := s.dropWhile isWS
  if r.length < s.length ∧ beginsWith kw r then some (r.drop kw.length)
  else none

/-- Position matcher for the BAC subject merchant pattern
`[Nn]otificaci[oó]n\s+de\s+transacci[oó]n\s+(.+?)\s+\d{2}-\d{2}-\d{4}`. -/
def tryNotif (s : List Char) : Option (List Char) :=
  match s with
  | c :: rest =>
    if (c = 'N' ∨ c = 'n') ∧ beginsWith (str "otificaci") rest then
      match rest.drop 9 with
      | d :: rest2 =>
        if (d = 'o' ∨ d = 'ó') ∧ beginsWith (str "n") rest2 then
          match wsThen (str "de") (rest2.drop 1) with
          | some r1 =>
            match wsThen (str "transacci") r1 with
            | some (e :: r2) =>
              if (e = 'o' ∨ e = 'ó') ∧ beginsWith (str "n") r2 then
                bacMerchAfterKw (r2.drop 1)
              else none
            | _ => none
          | none => none
        else none
      | [] => none
    else none
  | [] => none

/-- Position matcher for the subject date pattern
`(\d{2})-(\d{2})-(\d{4})`, returning the three groups. -/
def tryDdMmYyyy (s : List Char) :
    Option (List Char × List Char × List Char) :=
  match takeNdig 2 s with
  | some (dd, '-' :: r1) =>
    (match takeNdig 2 r1 with
     | some (mm, '-' :: r2) =>
       (match takeNdig 4 r2 with
        | some (yyyy, _) => some (dd, mm, yyyy)
        | none => none)
     | _ => none)
  | _ => none

/-- Consume a possibly-empty run of `\s` and `:` characters (the
`\s*[:\s]*` / `[:\s]+` separators of the card patterns). -/
def dropColonWS (s : List Char) : List Char :=
  s.dropWhile (fun c => c = ':' || isWS c)

/-- After a card keyword: `\s*[:\s]*\*{0,4}\s*(\d{4})`. -/
def cardAfterKw (s : List Char) : Option (List Char) :=
  let t1 := dropColonWS s
  let stars := t1.takeWhile (· = '*')
  if stars.length ≤ 4 then
    (takeNdig 4 ((t1.drop stars.length).dropWhile isWS)).map (·.1)
  else none

/-- Card pattern 1 (IGNORECASE, applied to lowered text):
`(?:tarjeta|card|ending|terminada?\s+en|xxxx)\s*[:\s]*\*{0,4}\s*(\d{4})`. -/
def tryCard1 (s : List Char) : Option (List Char) :=
  (if beginsWith (str "tarjeta") s then cardAfterKw (s.drop 7) else none) <|>
  (if beginsWith (str "card") s then cardAfterKw (s.drop 4) else none) <|>
  (if beginsWith (str "ending") s then cardAfterKw (s.drop 6) else none) <|>
  (if beginsWith (str "terminad") s then
     let t := s.drop 8
     let t := match t with
              | 'a' :: u => u
              | _ => t
     match wsThen (str "en") t with
     | some r => cardAfterKw r
     | none => none
   else none) <|>
  (if beginsWith (str "xxxx") s then cardAfterKw (s.drop 4) else none)

/-- Card pattern 2: `\*{4}(\d{4})`. -/
def tryCard2 (s : List Char) : Option (List Char) :=
  if beginsWith (str "****") s then (takeNdig 4 (s.drop 4)).map (·.1)
  else none

/-- Card pattern 3 on lowered text: `[Xx]{4}(\d{4})`. -/
def tryCard3 (s : List Char) : Option (List Char) :=
  if beginsWith (str "xxxx") s then (takeNdig 4 (s.drop 4)).map (·.1)
  else none

/-- Card pattern 4 on lowered text:
`(?:terminaci[oó]n|final)\s*[:\s]*(\d{4})`. -/
def tryCard4 (s : List Char) : Option (List Char) :=
  (if beginsWith (str "terminaci") s then
     (match s.drop 9 with
      | c :: r =>
        if (c = 'o' ∨ c = 'ó') ∧ beginsWith (str "n") r then
          (takeNdig 4 (dropColonWS (r.drop 1))).map (·.1)
        else none
      | [] => none)
   else none) <|>
  (if beginsWith (str "final") s then
     (takeNdig 4 (dropColonWS (s.drop 5))).map (·.1)
   else none)

/-- The ordered card-pattern cascade of `parse_bac_costa_rica`; all four
patterns are searched with IGNORECASE, modelled by searching the lowered
text (the captured group is digits, which lowering does not affect). -/
def bacCardSearch (low : List Char) : Option (List Char) :=
  [tryCard1, tryCard2, tryCard3, tryCard4].findSome?
    (fun p => scanFirst p low)

/-- The debit keyword list of `parse_bac_costa_rica`. -/
def debit_keywords : List (List Char) :=
  [str "compra", str "purchase", str "cargo", str "débito", str "debito",
   str "retiro", str "withdrawal", str "pago", str "payment", str "cobro",
   str "charge", str "spent", str "cajero", str "atm"]

/-- The credit keyword list of `parse_bac_costa_rica`. -/
def credit_keywords : List (List Char) :=
  [str "crédito", str "credito", str "credit", str "depósito",
   str "deposito", str "deposit", str "abono", str "reembolso",
   str "refund", str "devolución", str "devolucion"]

/-- Number of keywords from `kws` present in `textLower`
(`sum(1 for kw in kws if kw in text_lower)`). -/
def keywordScore (kws : List (List Char)) (textLower : List Char) : Nat :=
  kws.countP (fun kw => containsSub kw textLower)

/-! ### The parsed-field record and the two parser variants -/

/-- Input email message structure (`EmailMessage` TypedDict). -/
structure EmailMessage where
  id : List Char
  thread_id : List Char
  subject : List Char
  sender : List Char
  date : List Char
  body_text : List Char
  body_html : List Char
deriving DecidableEq

/-- The dict returned by both parser functions (everything of
`TransactionData` except `email_id`). -/
structure ParsedFields where
  merchant : List Char
  date : List Char
  amount : ℚ
  card_last_4 : List Char
  transaction_type : List Char
  confidence : ℚ
  raw_text : List Char
deriving DecidableEq

/-- Modelled from the spec: the `email.utils.parsedate_to_datetime` +
`strftime("%Y-%m-%d")` fallback, and `datetime.now().strftime("%Y-%m-%d")`,
are Python-stdlib behaviour outside this repository, so the environment is
abstracted: `headerDate` returns the ISO date of an RFC-2822 header when
that parse succeeds and `none` when it raises, and `today` is the current
processing date.  Theorems quantify over this context, so they hold for
every stdlib behaviour. -/
structure Ctx where
  today : List Char
  headerDate : List Char → Option (List Char)

/-- The BAC parser's body choice
(`clean_html(body_html) if body_html else body_text`). -/
def bacCleanBody (e : EmailMessage) : List Char :=
  if e.body_html ≠ [] then clean_html e.body_html else e.body_text

/-- The BAC parser's search text (`f"{subject}\n{clean_body}"`). -/
def bacFullText (e : EmailMessage) : List Char :=
  e.subject ++ '\n' :: bacCleanBody e

/-- Embedding of `parse_bac_costa_rica`. -/
def parse_bac_costa_rica (e : EmailMessage) (ctx : Ctx) : ParsedFields :=
  let subject := e.subject
  let full_text := bacFullText e
  let merchant :=
    match scanFirst tryNotif subject with
    | some g => stripWS g
    | none => str "Unknown Merchant"
  let date_str :=
    match scanFirst tryDdMmYyyy subject with
    | some (dd, mm, yyyy) => yyyy ++ '-' :: mm ++ '-' :: dd
    | none =>
      match ctx.headerDate e.date with
      | some iso => iso
      | none => ctx.today
  let amountRes := bacAmountCascade full_text
  let amount := amountRes.getD 0
  let card_last_four := (bacCardSearch (lowerStr full_text)).getD []
  let text_lower := lowerStr full_text
  let debit_score := keywordScore debit_keywords text_lower
  let credit_score := keywordScore credit_keywords text_lower
  let transaction_type :=
    if credit_score > debit_score then str "CREDIT" else str "DEBIT"
  let confidence : ℚ :=
    (if merchant ≠ str "Unknown Merchant" then mkRat 3 10 else 0) +
    (if date_str ≠ [] then mkRat 2 10 else 0) +
    (if amountRes.isSome then mkRat 4 10 else 0) +
    (if card_last_four ≠ [] then mkRat 1 10 else 0)
  { merchant := merchant
    date := date_str
    amount := amount
    card_last_4 := card_last_four
    transaction_type := transaction_type
    confidence := confidence
    raw_text := full_text.take 500 }

/-! ### Generic parser -/

/-- Position matcher for the generic amount pattern
`\$([0-9,]+\.[0-9]{2})`: greedy digit/comma run, then a literal dot and
exactly two digits (a shorter run would still face a non-dot, so the
greedy run is the only viable split). -/
def tryGenAmount (s : List Char) : Option (List Char) :=
  match s with
  | '$' :: rest =>
    let run := rest.takeWhile (fun c => isDigit c || c = ',')
    if run.length ≥ 1 then
      match rest.drop run.length with
      | '.' :: r2 => (takeNdig 2 r2).map (fun p => run ++ '.' :: p.1)
      | _ => none
    else none
  | _ => none

/-- The character class `[A-Za-z0-9\s&\'\-\.]` of the merchant groups. -/
def merchClass (c : Char) : Bool :=
  ('A' ≤ c && c ≤ 'Z') || ('a' ≤ c && c ≤ 'z') || isDigit c || isWS c ||
  c = '&' || c = Char.ofNat 39 || c = '-' || c = '.'

/-- Tail of generic merchant pattern 1:
`(?:\s+on|\s+for|\s+\$|\.|,|$)` (IGNORECASE, `$` also just before a final
newline). -/
def merch1TailOK (t : List Char) : Bool :=
  (let r := t.dropWhile isWS
   decide (r.length < t.length) &&
     (beginsWithCI (str "on") r || beginsWithCI (str "for") r ||
      decide (r.head? = some '$'))) ||
  decide (t.head? = some '.') || decide (t.head? = some ',') ||
  decide (t = []) || decide (t = ['\n'])

/-- Tail of generic merchant pattern 2: `(?:\s|$)`. -/
def merch2TailOK (t : List Char) : Bool :=
  match t with
  | [] => true
  | c :: _ => isWS c

/-- Greedy separator run followed by a lazy merchant group: backtrack the
run length from maximal down to one, growing the lazy group from one. -/
def sepThenLazy (sepClass : Char → Bool) (tailOK : List Char → Bool)
    (s : List Char) : Option (List Char) :=
  tryJ ((s.takeWhile sepClass).length)
where
  tryJ : Nat → Option (List Char)
    | 0 => none
    | j + 1 =>
      match lazyGroup merchClass tailOK (s.drop (j + 1)) with
      | some g => some g
      | none => tryJ j

/-- Generic merchant pattern 1 (IGNORECASE):
`(?:at|from|to|with)\s+([A-Za-z0-9\s&\'\-\.]+?)(?:\s+on|\s+for|\s+\$|\.|,|$)`.
The four keywords start with distinct letters, so alternation order
reduces to whichever one is present. -/
def tryGenMerch1 (s : List Char) : Option (List Char) :=
  match kwLen with
  | some n => sepThenLazy isWS merch1TailOK (s.drop n)
  | none => none
where
  kwLen : Option Nat :=
    if beginsWithCI (str "at") s then some 2
    else if beginsWithCI (str "from") s then some 4
    else if beginsWithCI (str "to") s then some 2
    else if beginsWithCI (str "with") s then some 4
    else none

/-- Generic merchant pattern 2 (IGNORECASE):
`(?:merchant|comercio)[:\s]+([A-Za-z0-9\s&\'\-\.]+?)(?:\s|$)`. -/
def tryGenMerch2 (s : List Char) : Option (List Char) :=
  match kwLen with
  | some n =>
    sepThenLazy (fun c => c = ':' || isWS c) merch2TailOK (s.drop n)
  | none => none
where
  kwLen : Option Nat :=
    if beginsWithCI (str "merchant") s then some 8
    else if beginsWithCI (str "comercio") s then some 8
    else none

/-- Candidates for `\d{1,2}` in greedy order. -/
def digits12 (s : List Char) : List (List Char × List Char) :=
  (takeNdig 2 s).toList ++ (takeNdig 1 s).toList

/-- Candidates for `\d{2,4}` in greedy order. -/
def digits24 (s : List Char) : List (List Char × List Char) :=
  (takeNdig 4 s).toList ++ (takeNdig 3 s).toList ++ (takeNdig 2 s).toList

/-- Position matcher for the generic date pattern: one or two digits, a
slash or dash, one or two digits, a slash or dash, then two to four
digits, each numeric run greedy. -/
def tryGenDate (s : List Char) : Option (List Char) :=
  (digits12 s).findSome? fun p1 =>
    match p1.2 with
    | c1 :: r2 =>
      if c1 = '/' ∨ c1 = '-' then
        (digits12 r2).findSome? fun p2 =>
          match p2.2 with
          | c2 :: r4 =>
            if c2 = '/' ∨ c2 = '-' then
              (digits24 r4).findSome? fun p3 =>
                some (p1.1 ++ c1 :: p2.1 ++ c2 :: p3.1)
            else none
          | [] => none
      else none
    | [] => none

/-! ### strptime on the four generic date formats -/

/-- Candidates for strptime's `%m`, `(1[0-2]|0[1-9]|[1-9])`, in
alternation order. -/
def mCands (s : List Char) : List (Nat × List Char) :=
  (match s with
   | '1' :: c :: r =>
     if '0' ≤ c ∧ c ≤ '2' then [(10 + (c.toNat - 48), r)] else []
   | _ => []) ++
  (match s with
   | '0' :: c :: r =>
     if '1' ≤ c ∧ c ≤ '9' then [(c.toNat - 48, r)] else []
   | _ => []) ++
  (match s with
   | c :: r => if '1' ≤ c ∧ c ≤ '9' then [(c.toNat - 48, r)] else []
   | [] => [])

/-- Candidates for strptime's `%d`, `(3[01]|[12]\d|0[1-9]|[1-9])`. -/
def dCands (s : List Char) : List (Nat × List Char) :=
  (match s with
   | '3' :: c :: r =>
     if c = '0' ∨ c = '1' then [(30 + (c.toNat - 48), r)] else []
   | _ => []) ++
  (match s with
   | c :: d :: r =>
     if (c = '1' ∨ c = '2') ∧ isDigit d then
       [(10 * (c.toNat - 48) + (d.toNat - 48), r)]
     else []
   | _ => []) ++
  (match s with
   | '0' :: c :: r =>
     if '1' ≤ c ∧ c ≤ '9' then [(c.toNat - 48, r)] else []
   | _ => []) ++
  (match s with
   | c :: r => if '1' ≤ c ∧ c ≤ '9' then [(c.toNat - 48, r)] else []
   | [] => [])

/-- Candidates for strptime's `%Y`: exactly four digits. -/
def yCands (s : List Char) : List (Nat × List Char) :=
  match takeNdig 4 s with
  | some (ds, r) => [(digitsVal ds, r)]
  | none => []

/-- Candidates for strptime's `%y`: two digits, with Python's century rule
(0–68 → 2000s, 69–99 → 1900s). -/
def y2Cands (s : List Char) : List (Nat × List Char) :=
  match takeNdig 2 s with
  | some (ds, r) =>
    let v := digitsVal ds
    [(if v ≤ 68 then 2000 + v else 1900 + v, r)]
  | none => []

/-- A three-directive strptime pattern `A sep B sep C`, anchored and
requiring full consumption, with regex backtracking across the
alternation-based directives. -/
def strptime3 (aC bC cC : List Char → List (Nat × List Char)) (sep : Char)
    (s : List Char) : Option (Nat × Nat × Nat) :=
  (aC s).findSome? fun (a, r1) =>
    match r1 with
    | c :: r2 =>
      if c = sep then
        (bC r2).findSome? fun (b, r3) =>
          match r3 with
          | c2 :: r4 =>
            if c2 = sep then
              (cC r4).findSome? fun (cv, r5) =>
                if r5 = [] then some (a, b, cv) else none
            else none
          | [] => none
      else none
    | [] => none

def isLeap (y : Nat) : Bool :=
  y % 4 = 0 && (y % 100 ≠ 0 || y % 400 = 0)

def daysInMonth (y m : Nat) : Nat :=
  if m = 2 then (if isLeap y then 29 else 28)
  else if m = 4 ∨ m = 6 ∨ m = 9 ∨ m = 11 then 30
  else 31

/-- The `datetime(year, month, day)` constructor's validation. -/
def validDate (y m d : Nat) : Bool :=
  1 ≤ y && y ≤ 9999 && 1 ≤ m && m ≤ 12 && 1 ≤ d && d ≤ daysInMonth y m

def pad2 (n : Nat) : List Char :=
  if n < 10 then '0' :: Nat.toDigits 10 n else Nat.toDigits 10 n

def pad4 (n : Nat) : List Char :=
  let ds := Nat.toDigits 10 n
  List.replicate (4 - ds.length) '0' ++ ds

/-- `strftime("%Y-%m-%d")`. -/
def isoOf (y m d : Nat) : List Char :=
  pad4 y ++ '-' :: pad2 m ++ '-' :: pad2 d

/-- One strptime format attempt ending in `datetime` validation. -/
def fmtMDY (sep : Char) (yC : List Char → List (Nat × List Char))
    (raw : List Char) : Option (List Char) :=
  match strptime3 mCands dCands yC sep raw with
  | some (m, d, y) => if validDate y m d then some (isoOf y m d) else none
  | none => none

def fmtDMY (raw : List Char) : Option (List Char) :=
  match strptime3 dCands mCands yCands '/' raw with
  | some (d, m, y) => if validDate y m d then some (isoOf y m d) else none
  | none => none

/-- The generic parser's format trial order:
`["%m/%d/%Y", "%m/%d/%y", "%m-%d-%Y", "%d/%m/%Y"]`, first success wins. -/
def genDateFromRaw (raw : List Char) : Option (List Char) :=
  fmtMDY '/' yCands raw <|> fmtMDY '/' y2Cands raw <|>
  fmtMDY '-' yCands raw <|> fmtDMY raw

/-- Generic card pattern (IGNORECASE, on lowered text):
`(?:ending in|card|xxxx)\s*(\d{4})`. -/
def tryGenCard (s : List Char) : Option (List Char) :=
  match kwLen with
  | some n => (takeNdig 4 ((s.drop n).dropWhile isWS)).map (·.1)
  | none => none
where
  kwLen : Option Nat :=
    if beginsWith (str "ending in") s then some 9
    else if beginsWith (str "card") s then some 4
    else if beginsWith (str "xxxx") s then some 4
    else none

/-- The generic debit keyword list (`debit_kw`). -/
def gen_debit_kw : List (List Char) :=
  [str "purchase", str "spent", str "charge", str "debit",
   str "withdrawal", str "payment"]

/-- The generic credit keyword list (`credit_kw`). -/
def gen_credit_kw : List (List Char) :=
  [str "credit", str "deposit", str "refund", str "received",
   str "cashback"]

/-- The generic parser's body choice: `body_text` is replaced by the
cleaned HTML when it looks like CSS (`startswith("@media")`). -/
def genBodyText (e : EmailMessage) : List Char :=
  if e.body_text ≠ [] ∧ beginsWith (str "@media") (stripWS e.body_text)
  then (if e.body_html ≠ [] then clean_html e.body_html else [])
  else e.body_text

/-- The generic parser's search text (`f"{subject} {body_text}"`). -/
def genFullText (e : EmailMessage) : List Char :=
  e.subject ++ ' ' :: genBodyText e

/-- Embedding of `parse_generic`. -/
def parse_generic (e : EmailMessage) (ctx : Ctx) : ParsedFields :=
  let full_text := genFullText e
  let amount : ℚ :=
    match scanFirst tryGenAmount full_text with
    | some g => (floatOfDigits (removeCommas g)).getD 0
    | none => 0
  let merchant :=
    match [tryGenMerch1, tryGenMerch2].findSome?
        (fun p => scanFirst p full_text) with
    | some g => (stripWS g).take 50
    | none => str "Unknown Merchant"
  let date_str0 :=
    match scanFirst tryGenDate full_text with
    | some raw => (genDateFromRaw raw).getD []
    | none => []
  let date_str :=
    if date_str0 ≠ [] then date_str0
    else
      match ctx.headerDate e.date with
      | some iso => iso
      | none => ctx.today
  let card_last_four := (scanFirst tryGenCard (lowerStr full_text)).getD []
  let text_lower := lowerStr full_text
  let transaction_type :=
    if keywordScore gen_credit_kw text_lower >
       keywordScore gen_debit_kw text_lower
    then str "CREDIT" else str "DEBIT"
  let confidence : ℚ :=
    (if 0 < amount then mkRat 4 10 else 0) +
    (if merchant ≠ str "Unknown Merchant" then mkRat 3 10 else 0) +
    (if date_str ≠ [] then mkRat 2 10 else 0) +
    (if card_last_four ≠ [] then mkRat 1 10 else 0)
  { merchant := merchant
    date := date_str
    amount := amount
    card_last_4 := card_last_four
    transaction_type := transaction_type
    confidence := confidence
    raw_text := full_text.take 500 }

/-! ### Bank detection and the batch entry point -/

/-- The `bank_map` dict, in insertion (i.e. lookup) order. -/
def bank_map : List (List Char × List Char) :=
  [(str "notificacionesbaccr", str "bac_cr"),
   (str "baborigen", str "bac_cr"),
   (str "baccredomatic", str "bac_cr"),
   (str "chase.com", str "chase"),
   (str "bankofamerica", str "bofa"),
   (str "wellsfargo", str "wells_fargo"),
   (str "capitalone", str "capital_one"),
   (str "citi.com", str "citi")]

/-- Embedding of `detect_bank`. -/
def detect_bank (sender : List Char) : List Char :=
  let sender_lower := lowerStr sender
  match bank_map.find? (fun p => containsSub p.1 sender_lower) with
  | some p => p.2
  | none => str "generic"

/-- Parsed transaction data structure (`TransactionData` TypedDict). -/
structure TransactionData where
  email_id : List Char
  date : List Char
  amount : ℚ
  merchant : List Char
  card_last_4 : List Char
  transaction_type : List Char
  raw_text : List Char
  confidence : ℚ
deriving DecidableEq

/-- One iteration of `main`'s loop.  In the source the parse result is
checked against `None`, but neither parser ever returns `None` and no
modelled operation raises, so every email yields exactly one record. -/
def parseOne (ctx : Ctx) (e : EmailMessage) : TransactionData :=
  let bank_id := detect_bank e.sender
  let parsed :=
    if bank_id = str "bac_cr" then parse_bac_costa_rica e ctx
    else parse_generic e ctx
  { email_id := e.id
    date := parsed.date
    amount := parsed.amount
    merchant := parsed.merchant
    card_last_4 := parsed.card_last_4
    transaction_type := parsed.transaction_type
    raw_text := parsed.raw_text
    confidence := parsed.confidence }

/-- Embedding of the parse script's `main`. -/
def main (emails : List EmailMessage) (ctx : Ctx) : List TransactionData :=
  emails.map (parseOne ctx)

/-! ### Categorizer (`Categorize transactions by merchant keywords.py`) -/

/-- One category definition: name, emoji, keyword list. -/
structure CategoryDef where
  name : List Char
  emoji : List Char
  keywords : List (List Char)

/-- The `CATEGORIES` table, in dict insertion (i.e. iteration) order. -/
def CATEGORIES : List CategoryDef :=
  [⟨str "Food & Dining", str "🍽️",
    [str "restaurant", str "cafe", str "coffee", str "starbucks",
     str "mcdonald", str "burger", str "pizza", str "subway",
     str "chipotle", str "panera", str "dining", str "food",
     str "doordash", str "ubereats", str "grubhub", str "postmates",
     str "delivery", str "soda", str "sabrosera", str "restaurante",
     str "comida", str "pollo", str "asados", str "pupuseria",
     str "marisqueria", str "panaderia", str "bakery"]⟩,
   ⟨str "Groceries", str "🛒",
    [str "grocery", str "supermarket", str "walmart", str "target",
     str "costco", str "safeway", str "kroger", str "whole foods",
     str "trader joe", str "aldi", str "market", str "food lion",
     str "supermercado", str "automercado", str "masxmenos",
     str "mas x menos", str "pali", str "megasuper", str "pricesmart",
     str "small world"]⟩,
   ⟨str "Transportation", str "🚗",
    [str "uber", str "lyft", str "taxi", str "gas", str "fuel",
     str "shell", str "chevron", str "exxon", str "bp", str "parking",
     str "transit", str "metro", str "train", str "bus", str "airline",
     str "gasolinera", str "gasolina", str "peaje", str "parqueo",
     str "estacionamiento"]⟩,
   ⟨str "Housing", str "🏠",
    [str "rent", str "mortgage", str "property", str "home depot",
     str "lowes", str "ikea", str "furniture", str "utilities",
     str "electric", str "water", str "internet", str "cable",
     str "alquiler", str "hipoteca", str "kolbi", str "ice", str "aya",
     str "cnfl", str "jasec"]⟩,
   ⟨str "Entertainment", str "🎬",
    [str "netflix", str "spotify", str "hulu", str "disney",
     str "amazon prime", str "youtube", str "movie", str "theater",
     str "cinema", str "concert", str "ticket", str "entertainment",
     str "game", str "steam", str "playstation", str "xbox",
     str "nintendo", str "google", str "temporary hold"]⟩,
   ⟨str "Shopping", str "🛍️",
    [str "amazon", str "ebay", str "etsy", str "shop", str "store",
     str "retail", str "mall", str "clothing", str "fashion",
     str "shoes", str "apparel", str "best buy", str "apple store",
     str "tienda", str "centro comercial", str "epa",
     str "construplaza"]⟩,
   ⟨str "Healthcare", str "⚕️",
    [str "pharmacy", str "cvs", str "walgreens", str "hospital",
     str "clinic", str "doctor", str "medical", str "health",
     str "dental", str "vision", str "insurance", str "prescription",
     str "farmacia", str "clinica", str "consultorio",
     str "laboratorio"]⟩,
   ⟨str "Travel", str "✈️",
    [str "hotel", str "airbnb", str "booking", str "expedia",
     str "airline", str "flight", str "travel", str "vacation",
     str "resort", str "marriott", str "hilton", str "hyatt",
     str "avianca", str "volaris", str "copa airlines"]⟩,
   ⟨str "Bills & Utilities", str "📄",
    [str "bill", str "utility", str "electric", str "gas", str "water",
     str "phone", str "mobile", str "verizon", str "att",
     str "t-mobile", str "comcast", str "spectrum", str "insurance",
     str "seguro", str "ins", str "ccss", str "caja"]⟩,
   ⟨str "Transfers", str "💸",
    [str "transfer", str "venmo", str "paypal", str "zelle",
     str "cashapp", str "payment", str "withdrawal", str "deposit",
     str "atm", str "sinpe", str "transferencia", str "cajero",
     str "cajero automatico", str "retiro"]⟩]

/-- A categorized transaction (`CategorizedTransaction` TypedDict). -/
structure CategorizedTransaction where
  email_id : List Char
  date : List Char
  amount : ℚ
  merchant : List Char
  card_last_4 : List Char
  transaction_type : List Char
  category : List Char
  category_emoji : List Char
  confidence : ℚ
  raw_text : List Char
deriving DecidableEq

/-- The per-category keyword match count of `categorize_transaction`. -/
def catScore (ml rl : List Char) (cat : CategoryDef) : Nat :=
  cat.keywords.countP (fun kw => containsSub kw ml || containsSub kw rl)

/-- The running-best fold step (`if match_count > best_match_count`). -/
def bestStep (ml rl : List Char)
    (best : List Char × List Char × Nat) (cat : CategoryDef) :
    List Char × List Char × Nat :=
  if catScore ml rl cat > best.2.2 then (cat.name, cat.emoji, catScore ml rl cat)
  else best

/-- Embedding of `categorize_transaction`. -/
def categorize_transaction (t : TransactionData) : CategorizedTransaction :=
  let merchant_lower := lowerStr t.merchant
  let raw_text_lower := lowerStr t.raw_text
  let best := CATEGORIES.foldl (bestStep merchant_lower raw_text_lower)
    (str "Other", str "❓", 0)
  { email_id := t.email_id
    date := t.date
    amount := t.amount
    merchant := t.merchant
    card_last_4 := t.card_last_4
    transaction_type := t.transaction_type
    category := best.1
    category_emoji := best.2.1
    confidence := t.confidence
    raw_text := t.raw_text }

/-! ### Already-normalized text: cleanliness predicates and no-op lemmas -/

/-- No two adjacent plain spaces. -/
def noDoubleSpace : List Char → Bool
  | [] => true
  | [_] => true
  | a :: b :: rest =>
    !(a = ' ' && b = ' ') && noDoubleSpace (b :: rest)

/-- No newline whose following whitespace run contains another newline
(i.e. no blank-line run the normalizer would collapse). -/
def noBlankRun : List Char → Bool
  | [] => true
  | c :: rest =>
    (if c = '\n' then (rest.takeWhile isWS).all (· ≠ '\n') else true) &&
    noBlankRun rest

/-- No leading or trailing whitespace. -/
def noEdgeWS (s : List Char) : Bool :=
  (match s.head? with | some c => !isWS c | none => true) &&
  (match s.getLast? with | some c => !isWS c | none => true)

/-- A sufficient condition for every stage of `clean_html` to be a no-op:
free of `<` (so no tag pattern can match), of `&` (no entities), of tabs,
adjacent spaces and blank-line runs, and of leading or trailing
whitespace (in Python's Unicode whitespace sense, `isWS`).  It is not
necessary — e.g. a lone `<` or `&` is also left unchanged. -/
def cleanText (s : List Char) : Bool :=
  s.all (· ≠ '<') && s.all (· ≠ '&') && s.all (· ≠ '\t') &&
  noDoubleSpace s && noBlankRun s && noEdgeWS s

theorem scanSubF_id (t : List Char → Option (List Char × Nat))
    (trig : Char → Bool)
    (ht : ∀ c rest, trig c = false → t (c :: rest) = none) :
    ∀ fuel s, s.all (fun c => !trig c) = true → scanSubF t fuel s = s := by
  intro fuel
  induction fuel with
  | zero => intro s _; rfl
  | succ n ih =>
    intro s hs
    match s with
    | [] => rfl
    | c :: rest =>
      simp only [List.all_cons, Bool.and_eq_true, Bool.not_eq_true'] at hs
      rw [scanSubF, ht c rest hs.1, ih rest (by simpa using hs.2)]

theorem scanSub_id (t : List Char → Option (List Char × Nat))
    (trig : Char → Bool)
    (ht : ∀ c rest, trig c = false → t (c :: rest) = none) (s : List Char)
    (hs : s.all (fun c => !trig c) = true) : scanSub t s = s :=
  scanSubF_id t trig ht s.length s hs

theorem tryStyle_skip (c : Char) (rest : List Char) (h : c ≠ '<') :
    tryStyle (c :: rest) = none := by
  simp [tryStyle, h]

theorem tryScriptT_skip (c : Char) (rest : List Char) (h : c ≠ '<') :
    tryScriptT (c :: rest) = none := by
  simp [tryScriptT, h]

theorem tryBr_skip (c : Char) (rest : List Char) (h : c ≠ '<') :
    tryBr (c :: rest) = none := by
  simp [tryBr, h]

theorem tryBlockClose_skip (c : Char) (rest : List Char) (h : c ≠ '<') :
    tryBlockClose (c :: rest) = none := by
  simp [tryBlockClose, h]

theorem tryTd_skip (c : Char) (rest : List Char) (h : c ≠ '<') :
    tryTd (c :: rest) = none := by
  simp [tryTd, h]

theorem tryAnyTag_skip (c : Char) (rest : List Char) (h : c ≠ '<') :
    tryAnyTag (c :: rest) = none := by
  simp [tryAnyTag, h]

/-- Helper: `decide (c = x)`-style triggers from an `all (· ≠ x)`. -/
theorem all_ne_to_trig (x : Char) (s : List Char)
    (h : s.all (· ≠ x) = true) :
    s.all (fun c => !(decide (c = x))) = true := by
  simpa [decide_not] using h

theorem tagStage_id (t : List Char → Option (List Char × Nat))
    (ht : ∀ c rest, c ≠ '<' → t (c :: rest) = none) (s : List Char)
    (hs : s.all (· ≠ '<') = true) : scanSub t s = s :=
  scanSub_id t (fun c => decide (c = '<'))
    (fun c rest hc => ht c rest (of_decide_eq_false hc)) s
    (all_ne_to_trig '<' s hs)

theorem replaceAll_id (p0 : Char) (pt rep : List Char) (s : List Char)
    (hs : s.all (· ≠ p0) = true) : replaceAll (p0 :: pt) rep s = s := by
  refine scanSub_id _ (fun c => decide (c = p0)) ?_ s (all_ne_to_trig p0 s hs)
  intro c rest hc
  have hcp : ¬(p0 = c) := fun h => (of_decide_eq_false hc) h.symm
  simp [beginsWith, hcp]

theorem decodeEntities_id (s : List Char) (hs : s.all (· ≠ '&') = true) :
    decodeEntities s = s := by
  unfold decodeEntities
  rw [show str "&nbsp;" = '&' :: str "nbsp;" from rfl,
      replaceAll_id _ _ _ _ hs,
      show str "&amp;" = '&' :: str "amp;" from rfl,
      replaceAll_id _ _ _ _ hs,
      show str "&lt;" = '&' :: str "lt;" from rfl,
      replaceAll_id _ _ _ _ hs,
      show str "&gt;" = '&' :: str "gt;" from rfl,
      replaceAll_id _ _ _ _ hs,
      show str "&quot;" = '&' :: str "quot;" from rfl,
      replaceAll_id _ _ _ _ hs,
      show str "&#39;" = '&' :: str "#39;" from rfl,
      replaceAll_id _ _ _ _ hs,
      show str "&apos;" = '&' :: str "apos;" from rfl,
      replaceAll_id _ _ _ _ hs]

theorem noDoubleSpace_tail (c : Char) (rest : List Char)
    (h : noDoubleSpace (c :: rest) = true) : noDoubleSpace rest = true := by
  match rest with
  | [] => rfl
  | b :: r2 =>
    simp only [noDoubleSpace, Bool.and_eq_true] at h
    exact h.2

theorem spacesStage_id : ∀ fuel s, s.all (· ≠ '\t') = true →
    noDoubleSpace s = true → scanSubF trySpaces fuel s = s := by
  intro fuel
  induction fuel with
  | zero => intro s _ _; rfl
  | succ n ih =>
    intro s htab hdb
    match s with
    | [] => rfl
    | c :: rest =>
      simp only [List.all_cons, Bool.and_eq_true] at htab
      have htc : c ≠ '\t' := by simpa using htab.1
      by_cases hsp : c = ' '
      · have hrun : rest.takeWhile (fun d => d = ' ' || d = '\t') = [] := by
          match rest with
          | [] => rfl
          | b :: r2 =>
            have hb : ¬(b = ' ') := by
              subst hsp
              simp only [noDoubleSpace, Bool.and_eq_true] at hdb
              simpa using hdb.1
            have hbt : b ≠ '\t' := by
              simp only [List.all_cons, Bool.and_eq_true] at htab
              simpa using htab.2.1
            simp [List.takeWhile, hb, hbt]
        subst hsp
        have h1 : trySpaces (' ' :: rest) = some ([' '], 0) := by
          simp [trySpaces, hrun, str]
        rw [scanSubF, h1]
        simp [ih rest htab.2 (noDoubleSpace_tail ' ' rest hdb)]
      · have h1 : trySpaces (c :: rest) = none := by
          simp [trySpaces, hsp, htc]
        rw [scanSubF, h1, ih rest htab.2 (noDoubleSpace_tail c rest hdb)]

theorem findIdx?_none_of_all (p : Char → Bool) :
    ∀ l : List Char, l.all (fun c => !p c) = true → l.findIdx? p = none := by
  intro l
  induction l with
  | nil => intro _; rfl
  | cons c rest ih =>
    intro h
    simp only [List.all_cons, Bool.and_eq_true, Bool.not_eq_true'] at h
    rw [List.findIdx?_cons]
    simp [h.1, ih (by simpa using h.2)]

theorem noBlankRun_tail (c : Char) (rest : List Char)
    (h : noBlankRun (c :: rest) = true) : noBlankRun rest = true := by
  simp only [noBlankRun, Bool.and_eq_true] at h
  exact h.2

theorem blankStage_id : ∀ fuel s, noBlankRun s = true →
    scanSubF tryBlankRun fuel s = s := by
  intro fuel
  induction fuel with
  | zero => intro s _; rfl
  | succ n ih =>
    intro s hb
    match s with
    | [] => rfl
    | c :: rest =>
      by_cases hc : c = '\n'
      · have hrun : (rest.takeWhile isWS).all (· ≠ '\n') = true := by
          simp only [noBlankRun, Bool.and_eq_true] at hb
          have := hb.1
          rwa [if_pos hc] at this
        have hidx : (rest.takeWhile isWS).reverse.findIdx? (· = '\n') =
            none := by
          refine findIdx?_none_of_all _ _ ?_
          rw [List.all_reverse]
          simpa [decide_not] using hrun
        have h1 : tryBlankRun (c :: rest) = none := by
          simp [tryBlankRun, hc, hidx]
        rw [scanSubF, h1, ih rest (noBlankRun_tail c rest hb)]
      · have h1 : tryBlankRun (c :: rest) = none := by
          simp [tryBlankRun, hc]
        rw [scanSubF, h1, ih rest (noBlankRun_tail c rest hb)]

theorem dropWhile_id_of_head (p : Char → Bool) (s : List Char)
    (h : ∀ c, s.head? = some c → p c = false) : s.dropWhile p = s := by
  match s with
  | [] => rfl
  | c :: rest => simp [List.dropWhile, h c rfl]

theorem stripWS_id (s : List Char) (h : noEdgeWS s = true) :
    stripWS s = s := by
  simp only [noEdgeWS, Bool.and_eq_true] at h
  unfold stripWS
  rw [dropWhile_id_of_head isWS s (by
    intro c hc
    have := h.1
    rw [hc] at this
    simpa using this)]
  rw [dropWhile_id_of_head isWS s.reverse (by
    intro c hc
    rw [List.head?_reverse] at hc
    have := h.2
    rw [hc] at this
    simpa using this)]
  exact List.reverse_reverse s

/-- On already-clean text (`cleanText`), `clean_html` is the identity. -/
theorem clean_html_id (s : List Char) (h : cleanText s = true) :
    clean_html s = s := by
  simp only [cleanText, Bool.and_eq_true] at h
  obtain ⟨⟨⟨⟨⟨hlt, hamp⟩, htab⟩, hdb⟩, hbl⟩, hedge⟩ := h
  by_cases hne : s = []
  · simp [clean_html, hne]
  · unfold clean_html
    rw [if_neg hne]
    rw [tagStage_id tryStyle tryStyle_skip s hlt,
        tagStage_id tryScriptT tryScriptT_skip s hlt,
        tagStage_id tryBr tryBr_skip s hlt,
        tagStage_id tryBlockClose tryBlockClose_skip s hlt,
        tagStage_id tryTd tryTd_skip s hlt,
        tagStage_id tryAnyTag tryAnyTag_skip s hlt,
        decodeEntities_id s hamp]
    rw [show scanSub trySpaces s = s from spacesStage_id s.length s htab hdb]
    rw [show scanSub tryBlankRun s = s from blankStage_id s.length s hbl]
    exact stripWS_id s hedge

/-! ### Spec-side definitions used to state the claims -/

/-- Modelled from the spec: quoted-printable transport decoding ("sequences
like `=XX` hex-escapes and soft line-break `=\n` continuations").  In the
running system this is done by the Python stdlib (`get_payload(decode=True)`
in the IMAP fetch script), not by any code of the parsing script; the
definition follows the spec's words and exists to compare against the
normalizer. -/
def qpDecodeSpec : List Char → List Char
  | [] => []
  | '=' :: '\n' :: rest => qpDecodeSpec rest
  | '=' :: a :: b :: rest =>
    if isHexDigit a ∧ isHexDigit b then
      Char.ofNat (16 * hexVal a + hexVal b) :: qpDecodeSpec rest
    else '=' :: qpDecodeSpec (a :: b :: rest)
  | c :: rest => c :: qpDecodeSpec rest
where
  isHexDigit (c : Char) : Bool :=
    isDigit c || ('A' ≤ c && c ≤ 'F') || ('a' ≤ c && c ≤ 'f')
  hexVal (c : Char) : Nat :=
    if isDigit c then c.toNat - 48
    else if 'A' ≤ c && c ≤ 'F' then c.toNat - 55
    else c.toNat - 87

/-- Rounding to two decimal places (the spec's output-confidence rule),
half rounded up. -/
def round2 (q : ℚ) : ℚ := mkRat (Int.floor (q * 100 + mkRat 1 2)) 100

/-- Arithmetic mean of a list of rationals (the spec's aggregation rule). -/
def listMean (l : List ℚ) : ℚ := l.sum * mkRat 1 l.length

/-- The per-field confidence contributions the BAC parser actually
computes (merchant, date, amount, card in the source's order): each is the
field's weight when the field matched and `0` otherwise — the only
per-field confidence values present in the code. -/
def bacFieldConfidences (e : EmailMessage) (ctx : Ctx) : List ℚ :=
  [if (parse_bac_costa_rica e ctx).merchant ≠ str "Unknown Merchant" then
     mkRat 3 10 else 0,
   if (parse_bac_costa_rica e ctx).date ≠ [] then mkRat 2 10 else 0,
   if (bacAmountCascade (bacFullText e)).isSome then mkRat 4 10 else 0,
   if (parse_bac_costa_rica e ctx).card_last_4 ≠ [] then mkRat 1 10 else 0]

/-- The per-field confidence contributions of the generic parser (amount,
merchant, date, card in the source's order). -/
def genFieldConfidences (e : EmailMessage) (ctx : Ctx) : List ℚ :=
  [if 0 < (parse_generic e ctx).amount then mkRat 4 10 else 0,
   if (parse_generic e ctx).merchant ≠ str "Unknown Merchant" then
     mkRat 3 10 else 0,
   if (parse_generic e ctx).date ≠ [] then mkRat 2 10 else 0,
   if (parse_generic e ctx).card_last_4 ≠ [] then mkRat 1 10 else 0]

/-- Calendar validity of a `YYYY-MM-DD` string (spec-side, to state that
the BAC date extractor can emit non-dates). -/
def isValidISODate (s : List Char) : Bool :=
  match s with
  | [y1, y2, y3, y4, sep1, m1, m2, sep2, d1, d2] =>
    sep1 = '-' && sep2 = '-' &&
    [y1, y2, y3, y4, m1, m2, d1, d2].all isDigit &&
    validDate (digitsVal [y1, y2, y3, y4]) (digitsVal [m1, m2])
      (digitsVal [d1, d2])
  | _ => false

/-- The maximum per-category score over a category list. -/
def maxCatScore (ml rl : List Char) (l : List CategoryDef) : Nat :=
  (l.map (catScore ml rl)).foldr max 0

/-- The spec's categorizer rule: the category with the strictly highest
keyword count, first in table order on ties, `Other`/`❓` when nothing
matches. -/
def specPick (ml rl : List Char) : List Char × List Char :=
  if maxCatScore ml rl CATEGORIES = 0 then (str "Other", str "❓")
  else
    match CATEGORIES.find?
        (fun c => catScore ml rl c = maxCatScore ml rl CATEGORIES) with
    | some c => (c.name, c.emoji)
    | none => (str "Other", str "❓")

/-! ### Concrete inputs used by the counterexamples and witnesses -/

/-- A fixed context: a concrete processing date, and a header-date parser
that always fails (the concrete emails below carry an empty `date` header,
on which `parsedate_to_datetime` raises). -/
def ctx0 : Ctx := ⟨str "2099-01-01", fun _ => none⟩

/-- An email with no amount-like text anywhere. -/
def emailNoAmount : EmailMessage :=
  ⟨str "id1", str "t1", str "hello", str "x@y.com", str "",
   str "hello hello", str ""⟩

/-- The spec's end-to-end scenario 1 email, verbatim. -/
def emailScenario1 : EmailMessage :=
  ⟨str "id2", str "t2",
   str "Notificación de transacción AUTOMERCADO 15-03-2024 - 14:22",
   str "notificaciones@baccr.fi.cr", str "", str "",
   str "<p>Monto:</p></td><td><p>CRC 25,500.00</p>"⟩

/-- Scenario 1 with a sender that actually contains the
`notificacionesbaccr` key of `bank_map`. -/
def emailScenario1Bac : EmailMessage :=
  ⟨str "id2", str "t2",
   str "Notificación de transacción AUTOMERCADO 15-03-2024 - 14:22",
   str "notificacionesbaccr@fi.cr", str "", str "",
   str "<p>Monto:</p></td><td><p>CRC 25,500.00</p>"⟩

/-- A BAC-format email whose amount literal is `45,00` (comma followed by
exactly two digits, no period). -/
def emailComma45 : EmailMessage :=
  ⟨str "id3", str "t3", str "s", str "notificacionesbaccr@fi.cr", str "",
   str "Monto: ₡45,00", str ""⟩

/-- A BAC-format email whose amount literal is `1.234,56` (period and
comma, comma last). -/
def emailMixed : EmailMessage :=
  ⟨str "id3b", str "t3b", str "s", str "notificacionesbaccr@fi.cr",
   str "", str "₡1.234,56", str ""⟩

/-- A BAC email on which all four confidence-bearing fields match. -/
def emailAllFields : EmailMessage :=
  ⟨str "id4", str "t4",
   str "Notificación de transacción AUTOMERCADO 15-03-2024 - 14:22",
   str "notificacionesbaccr@fi.cr", str "",
   str "Monto: CRC 1,500.00 tarjeta ****1234", str ""⟩

/-- A BAC email whose subject date token `99-88-2024` is not a calendar
date. -/
def emailBadDate : EmailMessage :=
  ⟨str "id5", str "t5",
   str "Notificación de transacción MAS X MENOS 99-88-2024 - 09:00",
   str "notificacionesbaccr@fi.cr", str "", str "", str ""⟩

/-! ### First-strict-argmax behaviour of the categorizer fold -/

theorem catScore_le_max (ml rl : List Char) :
    ∀ (l : List CategoryDef), ∀ c ∈ l,
      catScore ml rl c ≤ maxCatScore ml rl l := by
  intro l
  induction l with
  | nil => intro c hc; cases hc
  | cons a as ih =>
    intro c hc
    rw [maxCatScore, List.map_cons, List.foldr_cons]
    rcases List.mem_cons.mp hc with hceq | hcm
    · subst hceq; exact le_max_left _ _
    · exact le_trans (ih c hcm) (le_max_right _ _)

theorem foldBest_le (ml rl : List Char) :
    ∀ (l : List CategoryDef) (acc : List Char × List Char × Nat),
      (∀ c ∈ l, catScore ml rl c ≤ acc.2.2) →
      l.foldl (bestStep ml rl) acc = acc := by
  intro l
  induction l with
  | nil => intro acc _; rfl
  | cons a as ih =>
    intro acc h
    rw [List.foldl_cons]
    have ha : ¬(catScore ml rl a > acc.2.2) :=
      not_lt.mpr (h a (List.mem_cons_self a as))
    rw [show bestStep ml rl acc a = acc from by simp [bestStep, ha]]
    exact ih acc (fun c hc => h c (List.mem_cons_of_mem a hc))

theorem foldBest_find (ml rl : List Char) :
    ∀ (l : List CategoryDef) (acc : List Char × List Char × Nat),
      acc.2.2 < maxCatScore ml rl l →
      ∃ c, l.find? (fun c => catScore ml rl c = maxCatScore ml rl l) =
          some c ∧
        l.foldl (bestStep ml rl) acc =
          (c.name, c.emoji, catScore ml rl c) := by
  intro l
  induction l with
  | nil => intro acc h; simp [maxCatScore] at h
  | cons a as ih =>
    intro acc hacc
    have hmax : maxCatScore ml rl (a :: as) =
        max (catScore ml rl a) (maxCatScore ml rl as) := by
      rw [maxCatScore, List.map_cons, List.foldr_cons]; rfl
    by_cases hc : catScore ml rl a = maxCatScore ml rl (a :: as)
    · refine ⟨a, ?_, ?_⟩
      · rw [List.find?_cons_of_pos _ (by simpa using hc)]
      · rw [List.foldl_cons]
        have hup : bestStep ml rl acc a =
            (a.name, a.emoji, catScore ml rl a) := by
          have : acc.2.2 < catScore ml rl a := hc ▸ hacc
          simp [bestStep, this]
        rw [hup]
        rw [hc]
        refine foldBest_le ml rl as _ ?_
        intro c hcm
        have h1 := catScore_le_max ml rl as c hcm
        have h2 : maxCatScore ml rl as ≤ maxCatScore ml rl (a :: as) := by
          rw [hmax]; exact le_max_right _ _
        simpa using le_trans h1 h2
    · have hlt : catScore ml rl a < maxCatScore ml rl (a :: as) :=
        lt_of_le_of_ne
          (by rw [hmax]; exact le_max_left _ _) hc
      have heq : maxCatScore ml rl as = maxCatScore ml rl (a :: as) := by
        rcases le_or_lt (maxCatScore ml rl as) (catScore ml rl a) with h | h
        · exfalso
          have : maxCatScore ml rl (a :: as) = catScore ml rl a := by
            rw [hmax]; exact max_eq_left h
          exact hc this.symm
        · rw [hmax]; exact (max_eq_right (le_of_lt h)).symm
      have hacc2 : (bestStep ml rl acc a).2.2 < maxCatScore ml rl as := by
        rw [heq]
        by_cases hup : catScore ml rl a > acc.2.2
        · simpa [bestStep, hup] using hlt
        · simpa [bestStep, hup] using hacc
      obtain ⟨c, hfind, hfold⟩ := ih (bestStep ml rl acc a) hacc2
      refine ⟨c, ?_, ?_⟩
      · rw [List.find?_cons_of_neg _ (by simpa using hc), ← heq]
        exact hfind
      · rw [List.foldl_cons]
        exact hfold

/-! ### Claim C6 -/

/-- C6, counterexample: `clean_html` is not idempotent.  On the input
`"&lt;p&gt;x&lt;/p&gt;"` one pass decodes the entities into the tag text
`"<p>x</p>"` (entity decoding runs after tag stripping), and a second pass
strips those tags, so `clean_html (clean_html s) ≠ clean_html s`. -/
theorem c6_not_idempotent_counterexample :
    clean_html (clean_html (str "&lt;p&gt;x&lt;/p&gt;")) ≠
      clean_html (str "&lt;p&gt;x&lt;/p&gt;") := by decide

/-- C6, amended: `clean_html` is not idempotent in general (entity
decoding can reintroduce markup that a second pass strips — see the
counterexample); re-normalizing IS a no-op on any text satisfying the
sufficient condition `cleanText`: free of `<` and `&`, of tabs, adjacent
spaces and blank-line runs, and of leading or trailing whitespace in
Python's Unicode sense.  On such already-normalized text `clean_html` is
the identity, hence idempotent there. -/
theorem c6_normalize_noop_on_clean (s : List Char)
    (h : cleanText s = true) : clean_html s = s :=
  clean_html_id s h

theorem c6_normalize_noop_on_clean_witness :
    cleanText (str "Monto: | CRC 25,500.00") = true ∧
      clean_html (str "Monto: | CRC 25,500.00") =
        str "Monto: | CRC 25,500.00" :=
  ⟨by decide, c6_normalize_noop_on_clean _ (by decide)⟩

/-! ### Claim C5 -/

/-- C5, counterexample: the normalizer performs no quoted-printable
decoding.  On `"a=3Db"` the spec's decoding yields `"a=b"`, but
`clean_html` leaves the `=3D` escape intact, so matching after
`clean_html` does not see decoded text. -/
theorem c5_no_qp_decoding_counterexample :
    qpDecodeSpec (str "a=3Db") = str "a=b" ∧
    clean_html (str "a=3Db") = str "a=3Db" ∧
    clean_html (str "a=3Db") ≠ clean_html (qpDecodeSpec (str "a=3Db")) :=
  ⟨by decide, by decide, by decide⟩

/-- C5, amended: the normalizer does not decode quoted-printable; `=XX`
escapes survive `clean_html` unchanged (transport decoding happens
upstream, in the IMAP fetch collaborator's `get_payload(decode=True)`,
before the parser ever sees the body). -/
theorem c5_qp_escapes_survive (s : List Char) (h : cleanText s = true)
    (h2 : containsSub (str "=3D") s = true) :
    containsSub (str "=3D") (clean_html s) = true := by
  rw [clean_html_id s h]; exact h2

theorem c5_qp_escapes_survive_witness :
    cleanText (str "a=3Db") = true ∧
    containsSub (str "=3D") (clean_html (str "a=3Db")) = true :=
  ⟨by decide, c5_qp_escapes_survive _ (by decide) (by decide)⟩

/-! ### Claim C2 -/

/-- C2, counterexample: on the spec's end-to-end scenario 1 the pipeline
does not output merchant `"AUTOMERCADO"` — the sender
`notificaciones@baccr.fi.cr` does not contain the `notificacionesbaccr`
key, so the email is routed to the generic parser, which finds no
merchant. -/
theorem c2_scenario1_counterexample :
    (main [emailScenario1] ctx0).map (fun r => r.merchant) =
      [str "Unknown Merchant"] ∧
    str "Unknown Merchant" ≠ str "AUTOMERCADO" :=
  ⟨by decide, by decide⟩

/-- C2, amended: for scenario 1's sender the bank detector yields
`"generic"` and the output record is `Unknown Merchant` / amount `0` /
`DEBIT` (the record schema has no currency field at all); only with a
sender that contains `notificacionesbaccr` does the BAC parser run and
produce merchant `"AUTOMERCADO"`, date `"2024-03-15"`, amount `25500.0`
and `DEBIT` as the scenario expects. -/
theorem c2_scenario1_amended :
    detect_bank (str "notificaciones@baccr.fi.cr") = str "generic" ∧
    (main [emailScenario1] ctx0).map
        (fun r => (r.merchant, r.amount, r.transaction_type)) =
      [(str "Unknown Merchant", 0, str "DEBIT")] ∧
    detect_bank (str "notificacionesbaccr@fi.cr") = str "bac_cr" ∧
    (main [emailScenario1Bac] ctx0).map
        (fun r => (r.merchant, r.date, r.amount, r.transaction_type)) =
      [(str "AUTOMERCADO", str "2024-03-15", 25500, str "DEBIT")] :=
  ⟨by decide, by decide, by decide, by decide⟩

/-! ### Claim C3 -/

/-- C3, counterexample: the parser strips commas before `float`, so the
comma is never a decimal separator: `₡45,00` parses to `4500`, not `45`,
and `₡1.234,56` parses to `1.23456`, not `1234.56`. -/
theorem c3_comma_decimal_counterexample :
    (parse_bac_costa_rica emailComma45 ctx0).amount = 4500 ∧
    (4500 : ℚ) ≠ 45 ∧
    (parse_bac_costa_rica emailMixed ctx0).amount = mkRat 123456 100000 ∧
    mkRat 123456 100000 ≠ mkRat 123456 100 :=
  ⟨by decide, by decide, by decide, by decide⟩

theorem digitsVal_foldl (ys : List Char) : ∀ acc : Nat,
    ys.foldl (fun a c => 10 * a + (c.toNat - 48)) acc =
      acc * 10 ^ ys.length + digitsVal ys := by
  induction ys with
  | nil => intro acc; simp [digitsVal]
  | cons c ys ih =>
    intro acc
    rw [List.foldl_cons]
    rw [ih (10 * acc + (c.toNat - 48))]
    have hd : digitsVal (c :: ys) = (c.toNat - 48) * 10 ^ ys.length +
        digitsVal ys := by
      rw [digitsVal, List.foldl_cons]
      have := ih (10 * 0 + (c.toNat - 48))
      simpa [digitsVal] using this
    rw [hd, List.length_cons]
    ring

theorem digitsVal_append (xs ys : List Char) :
    digitsVal (xs ++ ys) = digitsVal xs * 10 ^ ys.length + digitsVal ys := by
  rw [digitsVal, List.foldl_append]
  exact digitsVal_foldl ys _

theorem digit_ne_comma (c : Char) (h : isDigit c = true) : c ≠ ',' := by
  intro hc
  subst hc
  exact absurd h (by decide)

theorem takeWhile_of_all (p : Char → Bool) :
    ∀ s : List Char, s.all p = true → s.takeWhile p = s := by
  intro s
  induction s with
  | nil => intro _; rfl
  | cons c rest ih =>
    intro h
    simp only [List.all_cons, Bool.and_eq_true] at h
    rw [List.takeWhile_cons_of_pos h.1, ih h.2]

theorem floatOfDigits_digits (s : List Char) (h : s.all isDigit = true)
    (hne : s ≠ []) : floatOfDigits s = some ((digitsVal s : ℕ) : ℚ) := by
  simp [floatOfDigits, takeWhile_of_all isDigit s h, List.drop_length, hne]

theorem filter_comma_digits :
    ∀ xs : List Char, xs.all isDigit = true →
      xs.filter (· ≠ ',') = xs := by
  intro xs
  induction xs with
  | nil => intro _; rfl
  | cons c rest ih =>
    intro h
    simp only [List.all_cons, Bool.and_eq_true] at h
    rw [List.filter_cons_of_pos (by simpa using digit_ne_comma c h.1),
        ih h.2]

/-- C3, amended: the amount-literal conversion deletes every comma and
reads the remaining digits as one number (period, when present, is always
the decimal separator): a literal `D…D,E…E` with only a comma parses to
the concatenated digits (so `45,00` gives `4500`, a thousands-separator
reading), and the mixed literal `1.234,56` parses to `1.23456`. -/
theorem c3_comma_is_stripped :
    (∀ ds es : List Char, ds ≠ [] → ds.all isDigit = true →
      es ≠ [] → es.all isDigit = true →
      bacLiteralValue (ds ++ ',' :: es) =
        some ((digitsVal ds * 10 ^ es.length + digitsVal es : ℕ) : ℚ)) ∧
    bacLiteralValue (str "1.234,56") = some (mkRat 123456 100000) := by
  constructor
  · intro ds es h1 h2 h3 h4
    have hfilter : (ds ++ ',' :: es).filter (· ≠ ',') = ds ++ es := by
      rw [List.filter_append, filter_comma_digits ds h2,
          List.filter_cons_of_neg (by decide), filter_comma_digits es h4]
    have hall : (ds ++ es).all isDigit = true := by
      rw [List.all_append, h2, h4]; rfl
    have hne2 : ds ++ es ≠ [] := by simp [h1]
    rw [bacLiteralValue, removeCommas, hfilter,
        floatOfDigits_digits (ds ++ es) hall hne2, digitsVal_append]
  · decide

theorem c3_comma_is_stripped_witness :
    bacLiteralValue (str "45" ++ ',' :: str "00") =
      some ((digitsVal (str "45") * 10 ^ (str "00").length +
        digitsVal (str "00") : ℕ) : ℚ) ∧
    (digitsVal (str "45") * 10 ^ (str "00").length +
      digitsVal (str "00") : ℕ) = 4500 :=
  ⟨c3_comma_is_stripped.1 (str "45") (str "00") (by decide) (by decide)
    (by decide) (by decide), by decide⟩

/-! ### Claim C1 -/

/-- C1, counterexample: an email with no parsable amount anywhere (both
parsers' amount extraction fails on it) is not dropped — a batch of one
such email yields one record, with amount `0`, so `N - K = 0` does not
hold. -/
theorem c1_no_amount_counterexample :
    scanFirst tryGenAmount (genFullText emailNoAmount) = none ∧
    bacAmountCascade (bacFullText emailNoAmount) = none ∧
    (main [emailNoAmount] ctx0).length = 1 ∧
    (main [emailNoAmount] ctx0).map (fun r => r.amount) = [0] :=
  ⟨by decide, by decide, by decide, by decide⟩

/-- C1, amended: no email is ever dropped — the batch entry point yields
exactly one record per input email (the parsers have no failure path), and
an email whose amount cascade matches nothing yields a record with amount
`0.0` rather than being excluded. -/
theorem c1_every_email_yields_record :
    (∀ (emails : List EmailMessage) (ctx : Ctx),
      (main emails ctx).length = emails.length) ∧
    (∀ (e : EmailMessage) (ctx : Ctx),
      bacAmountCascade (bacFullText e) = none →
        (parse_bac_costa_rica e ctx).amount = 0) ∧
    (∀ (e : EmailMessage) (ctx : Ctx),
      scanFirst tryGenAmount (genFullText e) = none →
        (parse_generic e ctx).amount = 0) := by
  refine ⟨?_, ?_, ?_⟩
  · intro emails ctx
    simp [main]
  · intro e ctx h
    simp [parse_bac_costa_rica, h]
  · intro e ctx h
    simp [parse_generic, h]

theorem c1_every_email_yields_record_witness :
    (main [emailNoAmount] ctx0).length = 1 ∧
    (parse_bac_costa_rica emailNoAmount ctx0).amount = 0 ∧
    (parse_generic emailNoAmount ctx0).amount = 0 :=
  ⟨c1_every_email_yields_record.1 [emailNoAmount] ctx0,
   c1_every_email_yields_record.2.1 emailNoAmount ctx0 (by decide),
   c1_every_email_yields_record.2.2 emailNoAmount ctx0 (by decide)⟩

/-! ### Claim C4 -/

/-- C4, counterexample: on a BAC email where all four fields match, the
code's confidence is `1.0`, while the rounded arithmetic mean of the
per-field confidence contributions it computed is `0.25` — the aggregate
is not a mean of the field confidences. -/
theorem c4_confidence_not_mean_counterexample :
    (parse_bac_costa_rica emailAllFields ctx0).confidence = 1 ∧
    round2 (listMean (bacFieldConfidences emailAllFields ctx0)) =
      mkRat 1 4 ∧
    (1 : ℚ) ≠ mkRat 1 4 :=
  ⟨by with_unfolding_all decide, by with_unfolding_all decide, by decide⟩

/-- C4, amended: the aggregate confidence is the **sum** (not the mean) of
fixed per-field weights — `0.3` merchant + `0.2` date + `0.4` amount +
`0.1` card for the BAC parser, `0.4` amount + `0.3` merchant + `0.2` date
+ `0.1` card for the generic parser, each contributing only when its field
matched — and no rounding is applied. -/
theorem c4_confidence_is_weighted_sum :
    ∀ (e : EmailMessage) (ctx : Ctx),
      (parse_bac_costa_rica e ctx).confidence =
        (bacFieldConfidences e ctx).sum ∧
      (parse_generic e ctx).confidence =
        (genFieldConfidences e ctx).sum := by
  intro e ctx
  constructor
  · simp only [bacFieldConfidences, parse_bac_costa_rica,
      List.sum_cons, List.sum_nil]
    ring
  · simp only [genFieldConfidences, parse_generic,
      List.sum_cons, List.sum_nil]
    ring

/-! ### Claim C7 -/

/-- C7: the transaction-type extractor is a keyword vote over the combined
subject+body text — each parser counts how many keywords of its debit and
credit lists occur in the lowercased full text, CREDIT exactly when the
credit count is strictly higher, and DEBIT otherwise (so ties and
no-keyword inputs give DEBIT). -/
theorem c7_type_is_keyword_vote :
    ∀ (e : EmailMessage) (ctx : Ctx),
      ((parse_bac_costa_rica e ctx).transaction_type = str "CREDIT" ↔
        keywordScore debit_keywords (lowerStr (bacFullText e)) <
          keywordScore credit_keywords (lowerStr (bacFullText e))) ∧
      ((parse_bac_costa_rica e ctx).transaction_type = str "DEBIT" ↔
        keywordScore credit_keywords (lowerStr (bacFullText e)) ≤
          keywordScore debit_keywords (lowerStr (bacFullText e))) ∧
      ((parse_generic e ctx).transaction_type = str "CREDIT" ↔
        keywordScore gen_debit_kw (lowerStr (genFullText e)) <
          keywordScore gen_credit_kw (lowerStr (genFullText e))) ∧
      ((parse_generic e ctx).transaction_type = str "DEBIT" ↔
        keywordScore gen_credit_kw (lowerStr (genFullText e)) ≤
          keywordScore gen_debit_kw (lowerStr (genFullText e))) := by
  intro e ctx
  refine ⟨?_, ?_, ?_, ?_⟩
  · by_cases h : keywordScore debit_keywords (lowerStr (bacFullText e)) <
        keywordScore credit_keywords (lowerStr (bacFullText e))
    · simp [parse_bac_costa_rica, h]
    · simp only [parse_bac_costa_rica, if_neg h]
      constructor
      · intro hc; exact absurd hc (by decide)
      · intro hc; exact absurd hc h
  · by_cases h : keywordScore debit_keywords (lowerStr (bacFullText e)) <
        keywordScore credit_keywords (lowerStr (bacFullText e))
    · simp only [parse_bac_costa_rica, if_pos h]
      constructor
      · intro hc; exact absurd hc (by decide)
      · intro hc; exact absurd h (not_lt.mpr hc)
    · simp [parse_bac_costa_rica, if_neg h, not_lt.mp h]
  · by_cases h : keywordScore gen_debit_kw (lowerStr (genFullText e)) <
        keywordScore gen_credit_kw (lowerStr (genFullText e))
    · simp [parse_generic, h]
    · simp only [parse_generic, if_neg h]
      constructor
      · intro hc; exact absurd hc (by decide)
      · intro hc; exact absurd hc h
  · by_cases h : keywordScore gen_debit_kw (lowerStr (genFullText e)) <
        keywordScore gen_credit_kw (lowerStr (genFullText e))
    · simp only [parse_generic, if_pos h]
      constructor
      · intro hc; exact absurd hc (by decide)
      · intro hc; exact absurd h (not_lt.mpr hc)
    · simp [parse_generic, if_neg h, not_lt.mp h]

theorem c7_type_is_keyword_vote_witness :
    (parse_bac_costa_rica emailNoAmount ctx0).transaction_type =
      str "DEBIT" ∧
    (parse_generic emailNoAmount ctx0).transaction_type = str "DEBIT" :=
  ⟨((c7_type_is_keyword_vote emailNoAmount ctx0).2.1).mpr (by decide),
   ((c7_type_is_keyword_vote emailNoAmount ctx0).2.2.2).mpr (by decide)⟩

/-! ### Claim C9 -/

/-- C9: categorization is an additive, non-destructive transform — every
field of the input `TransactionData` appears unchanged in the output
`CategorizedTransaction`, which only adds `category` and
`category_emoji`. -/
theorem c9_categorize_preserves_fields :
    ∀ t : TransactionData,
      (categorize_transaction t).email_id = t.email_id ∧
      (categorize_transaction t).date = t.date ∧
      (categorize_transaction t).amount = t.amount ∧
      (categorize_transaction t).merchant = t.merchant ∧
      (categorize_transaction t).card_last_4 = t.card_last_4 ∧
      (categorize_transaction t).transaction_type = t.transaction_type ∧
      (categorize_transaction t).confidence = t.confidence ∧
      (categorize_transaction t).raw_text = t.raw_text :=
  fun _ => ⟨rfl, rfl, rfl, rfl, rfl, rfl, rfl, rfl⟩

/-! ### Claim C10 -/

/-- C10: the BAC date extractor performs no calendar validation — whenever
the subject's `DD-MM-YYYY` search succeeds, the output date is the pure
textual rearrangement `YYYY-MM-DD` of the matched digit groups, and on
the subject token `99-88-2024` it emits `"2024-88-99"`, which is not a
valid calendar date. -/
theorem c10_date_textual_rearrangement :
    (∀ (e : EmailMessage) (ctx : Ctx) (dd mm yyyy : List Char),
      scanFirst tryDdMmYyyy e.subject = some (dd, mm, yyyy) →
        (parse_bac_costa_rica e ctx).date =
          yyyy ++ '-' :: mm ++ '-' :: dd) ∧
    (parse_bac_costa_rica emailBadDate ctx0).date = str "2024-88-99" ∧
    isValidISODate (str "2024-88-99") = false := by
  refine ⟨?_, by decide, by decide⟩
  intro e ctx dd mm yyyy h
  simp [parse_bac_costa_rica, h]

theorem c10_date_textual_rearrangement_witness :
    (parse_bac_costa_rica emailBadDate ctx0).date =
      str "2024" ++ '-' :: str "88" ++ '-' :: str "99" :=
  c10_date_textual_rearrangement.1 emailBadDate ctx0 (str "99") (str "88")
    (str "2024") (by decide)

/-! ### Claim C8 -/

/-- C8: the categorizer returns the category with the strictly highest
keyword-match count over merchant and raw text (case-insensitive
substring matches); ties keep the category first in table order, and when
no keyword of any category matches the result is `Other` with `❓`. -/
theorem c8_categorizer_first_strict_max :
    ∀ t : TransactionData,
      ((categorize_transaction t).category,
        (categorize_transaction t).category_emoji) =
      specPick (lowerStr t.merchant) (lowerStr t.raw_text) := by
  intro t
  by_cases hM : maxCatScore (lowerStr t.merchant) (lowerStr t.raw_text)
      CATEGORIES = 0
  · have hfold := foldBest_le (lowerStr t.merchant) (lowerStr t.raw_text)
      CATEGORIES (str "Other", str "❓", 0)
      (fun c hc => by
        have h1 := catScore_le_max (lowerStr t.merchant)
          (lowerStr t.raw_text) CATEGORIES c hc
        omega)
    simp [categorize_transaction, specPick, hM, hfold]
  · have h0 : ((str "Other", str "❓", (0 : Nat)) :
        List Char × List Char × Nat).2.2 <
        maxCatScore (lowerStr t.merchant) (lowerStr t.raw_text)
          CATEGORIES :=
      Nat.pos_of_ne_zero hM
    obtain ⟨c, hfind, hfold⟩ := foldBest_find (lowerStr t.merchant)
      (lowerStr t.raw_text) CATEGORIES _ h0
    simp [categorize_transaction, specPick, hM, hfold, hfind]

end Windmill
